import Mathlib

/-!
Shallow embedding of the TFTP packet codec from `src/tftp/details/packets.hpp`
(repository eoan-ermine/tftp).

Modelling conventions:
- bytes are `Nat` (morally `< 256`); C++ `std::string` / `std::vector<uint8_t>`
  fields become `List Nat`;
- the two byte writes `*(It++) = uint8_t(htons(v) >> 0)` and
  `*(It++) = uint8_t(htons(v) >> 8)` used on every 16-bit field are modelled on
  a little-endian host, where `htons` swaps the bytes, so the first written
  byte is the high byte of `v` and the second the low byte (big-endian wire
  order): `be16`;
- a C++ constructor whose body contains `assert(...)` preconditions becomes an
  `Option`-returning factory `mk?` that yields `none` exactly when an
  assertion would fail;
- `serialize` writes bytes through an output iterator and returns a size; it is
  modelled as producing the pair (written byte list, returned size).  The
  `Request::serialize` member begins with
  `assert(OptionsNames.size() == OptionsValues.size())`, so it is modelled as
  `Option (List Nat × Nat)`, `none` on assertion failure; the other four
  variants assert nothing in `serialize` and are total.
The repository contains no decode/parse path; the decoder used for the
round-trip property is modelled from the specification (see `decode` below).
-/

namespace tftp

abbrev Byte := Nat

/-- ASCII bytes of a string literal (all strings in play are ASCII). -/
def str (s : String) : List Byte := s.data.map Char.toNat

/-- Big-endian byte pair of a 16-bit value: models the consecutive writes
`uint8_t(htons(v) >> 0)` then `uint8_t(htons(v) >> 8)` on a little-endian
host (high byte first, then low byte). -/
def be16 (v : Nat) : List Byte := [v / 256 % 256, v % 256]

namespace types

/-- Operation code `types::Type::ReadRequest`. -/
def ReadRequest : Nat := 0x01

/-- Operation code `types::Type::WriteRequest`. -/
def WriteRequest : Nat := 0x02

/-- Operation code `types::Type::DataPacket`. -/
def DataPacket : Nat := 0x03

/-- Operation code `types::Type::AcknowledgmentPacket`. -/
def AcknowledgmentPacket : Nat := 0x04

/-- Operation code `types::Type::ErrorPacket`. -/
def ErrorPacket : Nat := 0x05

/-- Operation code `types::Type::OptionAcknowledgmentPacket`. -/
def OptionAcknowledgmentPacket : Nat := 0x06

end types

/-- State of a `tftp::packets::Request` object: opcode, filename, mode and the
two parallel option vectors `OptionsNames` / `OptionsValues`. -/
structure Request where
  Type_ : Nat
  Filename : List Byte
  Mode : List Byte
  OptionsNames : List (List Byte)
  OptionsValues : List (List Byte)
deriving Repr, DecidableEq

/-- The `Request` constructors: all of them `assert(Type == types::ReadRequest
|| Type == types::WriteRequest)` and copy the remaining arguments verbatim
(the two-argument form leaves the option vectors empty; the five-argument form
is modelled here, with `[] []` recovering the two-argument form).  No other
validation is performed.  `none` models assertion failure. -/
def Request.mk? (T : Nat) (Filename Mode : List Byte)
    (OptionsNames OptionsValues : List (List Byte)) : Option Request :=
  if T = types.ReadRequest ∨ T = types.WriteRequest then
    some ⟨T, Filename, Mode, OptionsNames, OptionsValues⟩
  else
    none

/-- Bytes emitted by the option loop of `Request::serialize` and
`OptionAcknowledgment::serialize`: for each pair, name bytes, `0x00`, value
bytes, `0x00`. -/
def optionPairBytes : List (List Byte × List Byte) → List Byte
  | [] => []
  | (n, v) :: rest => n ++ [0] ++ v ++ [0] ++ optionPairBytes rest

/-- The `OptionsSize` accumulator of the same loops:
`OptionsSize += name.size() + value.size() + 2` per pair. -/
def optionPairSize : List (List Byte × List Byte) → Nat
  | [] => 0
  | (n, v) :: rest => n.length + v.length + 2 + optionPairSize rest

/-- Model of `Request::serialize`: asserts the two option vectors have equal
length (`none` on failure), then writes the opcode via `be16`, the filename,
`0x00`, the mode, `0x00`, and the option pairs in index order; returns
`sizeof(Type_) + Filename.size() + Mode.size() + OptionsSize + 2` alongside.
With equal lengths the indexed loop visits exactly the pairs of
`OptionsNames.zip OptionsValues`. -/
def Request.serialize (r : Request) : Option (List Byte × Nat) :=
  if r.OptionsNames.length = r.OptionsValues.length then
    some (be16 r.Type_ ++ r.Filename ++ [0] ++ r.Mode ++ [0]
            ++ optionPairBytes (r.OptionsNames.zip r.OptionsValues),
          2 + r.Filename.length + r.Mode.length
            + optionPairSize (r.OptionsNames.zip r.OptionsValues) + 2)
  else
    none

/-- State of a `tftp::packets::Data` object (its `Type_` member is the
constant `types::DataPacket`). -/
structure Data where
  Block : Nat
  DataBuffer : List Byte
deriving Repr, DecidableEq

/-- The `Data` constructors: `assert(Block >= 1)` and
`assert(Buffer.size() >= 0 && Buffer.size() <= 512)` (the lower bound is
vacuous for an unsigned size), then store the fields.  `none` models
assertion failure. -/
def Data.mk? (Block : Nat) (Buffer : List Byte) : Option Data :=
  if 1 ≤ Block ∧ Buffer.length ≤ 512 then some ⟨Block, Buffer⟩ else none

/-- Model of `Data::serialize`: opcode bytes, block bytes (both via the
`htons` idiom, i.e. `be16`), then the payload bytes verbatim; returns
`sizeof(Type_) + sizeof(Block) + DataBuffer.size()`. -/
def Data.serialize (d : Data) : List Byte × Nat :=
  (be16 types.DataPacket ++ be16 d.Block ++ d.DataBuffer,
   2 + 2 + d.DataBuffer.length)

/-- State of a `tftp::packets::Acknowledgment` object (its `Type_` member is
the constant `types::AcknowledgmentPacket`). -/
structure Acknowledgment where
  Block : Nat
deriving Repr, DecidableEq

/-- The `Acknowledgment` constructor: `assert(Block >= 1)`, then store the
block.  `none` models assertion failure. -/
def Acknowledgment.mk? (Block : Nat) : Option Acknowledgment :=
  if 1 ≤ Block then some ⟨Block⟩ else none

/-- Model of `Acknowledgment::serialize`: opcode bytes then block bytes, both
via `be16`; returns `sizeof(Type_) + sizeof(Block)`. -/
def Acknowledgment.serialize (a : Acknowledgment) : List Byte × Nat :=
  (be16 types.AcknowledgmentPacket ++ be16 a.Block, 2 + 2)

/-- State of a `tftp::packets::Error` object (its `Type_` member is the
constant `types::ErrorPacket`). -/
structure Error where
  ErrorCode : Nat
  ErrorMessage : List Byte
deriving Repr, DecidableEq

/-- The `Error` constructors: `assert(ErrorCode >= 0 && ErrorCode <= 8)` (the
lower bound is vacuous for an unsigned value), then store the fields.  `none`
models assertion failure. -/
def Error.mk? (ErrorCode : Nat) (ErrorMessage : List Byte) : Option Error :=
  if ErrorCode ≤ 8 then some ⟨ErrorCode, ErrorMessage⟩ else none

/-- Model of `Error::serialize`: opcode bytes, error-code bytes (both via
`be16`), the message bytes, then a single `0x00`; returns
`sizeof(Type_) + sizeof(ErrorCode) + ErrorMessage.size() + 1`. -/
def Error.serialize (e : Error) : List Byte × Nat :=
  (be16 types.ErrorPacket ++ be16 e.ErrorCode ++ e.ErrorMessage ++ [0],
   2 + 2 + e.ErrorMessage.length + 1)

/-- State of a `tftp::packets::OptionAcknowledgment` object.  The C++ member
is `std::unordered_map<std::string, std::string> Options`; it is modelled as
the association list of the map in its (deterministic, for a given map state)
iteration order, with unique keys as the map invariant. -/
structure OptionAcknowledgment where
  Options : List (List Byte × List Byte)
deriving Repr, DecidableEq

/-- Model of `OptionAcknowledgment::serialize`: opcode bytes, then for each
map entry in iteration order: key bytes, `0x00`, value bytes, `0x00`; returns
`sizeof(Type_) + OptionsSize`. -/
def OptionAcknowledgment.serialize (o : OptionAcknowledgment) :
    List Byte × Nat :=
  (be16 types.OptionAcknowledgmentPacket ++ optionPairBytes o.Options,
   2 + optionPairSize o.Options)

/-- The closed sum of the five packet variants. -/
inductive Packet where
  | request : Request → Packet
  | data : Data → Packet
  | ack : Acknowledgment → Packet
  | err : Error → Packet
  | oack : OptionAcknowledgment → Packet
deriving Repr, DecidableEq

/-- Dispatch of serialization over the five variants (the encoder half of the
codec; only `Request::serialize` carries an assertion, the others are total).
Produces the written bytes and the returned size. -/
def Packet.serialize : Packet → Option (List Byte × Nat)
  | .request r => r.serialize
  | .data d => some d.serialize
  | .ack a => some a.serialize
  | .err e => some e.serialize
  | .oack o => some o.serialize

/-- The byte sequence an encode produces (first component of `serialize`). -/
def encode (p : Packet) : Option (List Byte) :=
  (p.serialize).map Prod.fst

/-! ## Section 3 invariants (well-formedness of the packet model) -/

/-- The blanket string invariant of spec section 3: ASCII, never containing
the null byte. -/
def asciiNoNull (s : List Byte) : Prop := (∀ b ∈ s, b < 128) ∧ 0 ∉ s

instance (s : List Byte) : Decidable (asciiNoNull s) := by
  unfold asciiNoNull; infer_instance

/-- Section 3 invariants of a Request: opcode one of the two request codes;
filename and mode non-empty ASCII without embedded null; the two option
vectors form a sequence of pairs (equal length); option names unique; option
strings ASCII without embedded null. -/
def Request.wf (r : Request) : Prop :=
  (r.Type_ = types.ReadRequest ∨ r.Type_ = types.WriteRequest) ∧
  r.Filename ≠ [] ∧ asciiNoNull r.Filename ∧
  r.Mode ≠ [] ∧ asciiNoNull r.Mode ∧
  r.OptionsNames.length = r.OptionsValues.length ∧
  r.OptionsNames.Nodup ∧
  (∀ n ∈ r.OptionsNames, asciiNoNull n) ∧
  (∀ v ∈ r.OptionsValues, asciiNoNull v)

instance (r : Request) : Decidable r.wf := by
  unfold Request.wf; infer_instance

/-- Section 3 invariants of a Data packet: block at least 1 (and a 16-bit
value), payload of at most 512 bytes (each a byte value). -/
def Data.wf (d : Data) : Prop :=
  1 ≤ d.Block ∧ d.Block < 65536 ∧ d.DataBuffer.length ≤ 512 ∧
  ∀ b ∈ d.DataBuffer, b < 256

instance (d : Data) : Decidable d.wf := by
  unfold Data.wf; infer_instance

/-- Section 3 invariants of an Acknowledgment: block at least 1 (and a
16-bit value). -/
def Acknowledgment.wf (a : Acknowledgment) : Prop :=
  1 ≤ a.Block ∧ a.Block < 65536

instance (a : Acknowledgment) : Decidable a.wf := by
  unfold Acknowledgment.wf; infer_instance

/-- Section 3 invariants of an Error packet: code between 0 and 8, message
ASCII without embedded null (possibly empty). -/
def Error.wf (e : Error) : Prop :=
  e.ErrorCode ≤ 8 ∧ asciiNoNull e.ErrorMessage

instance (e : Error) : Decidable e.wf := by
  unfold Error.wf; infer_instance

/-- Section 3 invariants of an OptionAcknowledgment: names unique (the
mapping invariant), strings ASCII without embedded null. -/
def OptionAcknowledgment.wf (o : OptionAcknowledgment) : Prop :=
  (o.Options.map Prod.fst).Nodup ∧
  ∀ q ∈ o.Options, asciiNoNull q.1 ∧ asciiNoNull q.2

instance (o : OptionAcknowledgment) : Decidable o.wf := by
  unfold OptionAcknowledgment.wf; infer_instance

/-- Section 3 invariants, dispatched over the five variants. -/
def Packet.wf : Packet → Prop
  | .request r => r.wf
  | .data d => d.wf
  | .ack a => a.wf
  | .err e => e.wf
  | .oack o => o.wf

instance (p : Packet) : Decidable p.wf := by
  cases p <;> (unfold Packet.wf; infer_instance)

/-! ## Decoder, modelled from the spec

The repository has no decode/parse path at all (spec section 9 records
this); everything from here to `decode` is modelled from the words of spec
sections 4.3, 4.4 and 7. -/

def exceptDecEq {ε α : Type} [DecidableEq ε] [DecidableEq α] :
    (a b : Except ε α) → Decidable (a = b)
  | Except.ok a, Except.ok b =>
    match decEq a b with
    | isTrue h => isTrue (by rw [h])
    | isFalse h => isFalse (fun hh => h (Except.ok.inj hh))
  | Except.error a, Except.error b =>
    match decEq a b with
    | isTrue h => isTrue (by rw [h])
    | isFalse h => isFalse (fun hh => h (Except.error.inj hh))
  | Except.ok _, Except.error _ => isFalse (fun hh => Except.noConfusion hh)
  | Except.error _, Except.ok _ => isFalse (fun hh => Except.noConfusion hh)

instance {ε α : Type} [DecidableEq ε] [DecidableEq α] : DecidableEq (Except ε α) :=
  exceptDecEq

/-- Modelled from the spec: the `DecodingError` taxonomy of spec section 7
(the source has no decoder). -/
inductive DecodingError where
  | UnknownOpcode
  | TruncatedPacket
  | MissingTerminator
  | TrailingBytes
  | InvalidMode
  | InvalidErrorCode
  | OversizedPayload
  | DuplicateOption
deriving Repr, DecidableEq

/-- Modelled from the spec: scan for the next null byte, returning the bytes
before it and the bytes after it, or `none` when no terminator occurs before
buffer end (the source has no decoder). -/
def splitAtNull : List Byte → Option (List Byte × List Byte)
  | [] => none
  | b :: rest =>
    if b = 0 then some ([], rest)
    else
      match splitAtNull rest with
      | none => none
      | some (s, r) => some (b :: s, r)

/-- Lowercase an ASCII byte, for the case-insensitive mode comparison. -/
def toLowerByte (b : Byte) : Byte := if 65 ≤ b ∧ b ≤ 90 then b + 32 else b

/-- Modelled from the spec: validate a decoded mode case-insensitively
against the known transfer-mode names, netascii and octet, with strict
rejection of anything else (the source has no decoder). -/
def validMode (m : List Byte) : Bool :=
  (m.map toLowerByte == str "netascii") || (m.map toLowerByte == str "octet")

/-- Modelled from the spec: the worker of `parsePairs`, consuming the buffer
greedily two null-terminated strings at a time (the source has no decoder).
The `fuel` argument only forces structural termination; every pair consumes
at least two bytes while fuel decreases by one, so starting fuel at the
buffer length (as `parsePairs` does) never exhausts it. -/
def parsePairsGo : Nat → List Byte → Except DecodingError (List (List Byte × List Byte))
  | _, [] => Except.ok []
  | 0, _ :: _ => Except.error DecodingError.MissingTerminator
  | Nat.succ fuel, b :: rest =>
    match splitAtNull (b :: rest) with
    | none => Except.error DecodingError.MissingTerminator
    | some (name, rest1) =>
      match splitAtNull rest1 with
      | none => Except.error DecodingError.MissingTerminator
      | some (val, rest2) =>
        match parsePairsGo fuel rest2 with
        | Except.error e => Except.error e
        | Except.ok ps => Except.ok ((name, val) :: ps)

/-- Modelled from the spec: `parse_pairs` of spec section 4.4 — parse the
remaining buffer as a sequence of (name, null, value, null) pairs until it is
exhausted; a trailing unterminated fragment gives `MissingTerminator` (the
source has no decoder). -/
def parsePairs (l : List Byte) : Except DecodingError (List (List Byte × List Byte)) :=
  parsePairsGo l.length l

/-- Modelled from the spec: `decode(bytes) -> Packet or DecodingError` of
spec section 4.3 (the source has no decoder).  Requires at least two bytes,
reads the big-endian opcode, dispatches on it, and builds the packet value
directly on success (the source reserves its default constructors for
parsing, bypassing the asserting ones). -/
def decode (l : List Byte) : Except DecodingError Packet :=
  match l with
  | b0 :: b1 :: rest =>
    let op := b0 * 256 + b1
    if op = types.ReadRequest ∨ op = types.WriteRequest then
      match splitAtNull rest with
      | none => Except.error DecodingError.MissingTerminator
      | some (fname, rest1) =>
        match splitAtNull rest1 with
        | none => Except.error DecodingError.MissingTerminator
        | some (mode, rest2) =>
          if validMode mode then
            match parsePairs rest2 with
            | Except.error e => Except.error e
            | Except.ok ps =>
              if (ps.map Prod.fst).Nodup then
                Except.ok (Packet.request
                  ⟨op, fname, mode, ps.map Prod.fst, ps.map Prod.snd⟩)
              else Except.error DecodingError.DuplicateOption
          else Except.error DecodingError.InvalidMode
    else if op = types.DataPacket then
      match rest with
      | bh :: bl :: payload =>
        if payload.length ≤ 512 then
          Except.ok (Packet.data ⟨bh * 256 + bl, payload⟩)
        else Except.error DecodingError.OversizedPayload
      | _ => Except.error DecodingError.TruncatedPacket
    else if op = types.AcknowledgmentPacket then
      match rest with
      | [bh, bl] => Except.ok (Packet.ack ⟨bh * 256 + bl⟩)
      | [] => Except.error DecodingError.TruncatedPacket
      | [_] => Except.error DecodingError.TruncatedPacket
      | _ => Except.error DecodingError.TrailingBytes
    else if op = types.ErrorPacket then
      match rest with
      | ch :: cl :: rest2 =>
        if ch * 256 + cl ≤ 8 then
          match splitAtNull rest2 with
          | none => Except.error DecodingError.MissingTerminator
          | some (msg, after) =>
            if after = [] then Except.ok (Packet.err ⟨ch * 256 + cl, msg⟩)
            else Except.error DecodingError.TrailingBytes
        else Except.error DecodingError.InvalidErrorCode
      | _ => Except.error DecodingError.TruncatedPacket
    else if op = types.OptionAcknowledgmentPacket then
      match parsePairs rest with
      | Except.error e => Except.error e
      | Except.ok ps =>
        if (ps.map Prod.fst).Nodup then Except.ok (Packet.oack ⟨ps⟩)
        else Except.error DecodingError.DuplicateOption
    else Except.error DecodingError.UnknownOpcode
  | _ => Except.error DecodingError.TruncatedPacket

/-- Mode validity of a packet: every non-Request packet trivially, a Request
when its mode is case-insensitively one of the known transfer-mode names. -/
def Packet.modeKnown : Packet → Prop
  | .request r => validMode r.Mode = true
  | .data _ => True
  | .ack _ => True
  | .err _ => True
  | .oack _ => True

instance (p : Packet) : Decidable p.modeKnown := by
  cases p <;> (unfold Packet.modeKnown; infer_instance)

/-- Size of a packet as the claims compute it in advance: for Request,
`2 + |filename| + |mode| + 2` plus `|name| + |value| + 2` per option; for
OptionAcknowledgment, `2` plus `|name| + |value| + 2` per entry; for Error,
`|message| + 5`; for Data, `4 + |payload|`; for Acknowledgment, `4`. -/
def claimedSize : Packet → Nat
  | .request r => 2 + r.Filename.length + r.Mode.length + 2 +
      (((r.OptionsNames.zip r.OptionsValues).map
        fun q => q.1.length + q.2.length + 2).sum)
  | .data d => 4 + d.DataBuffer.length
  | .ack _ => 4
  | .err e => e.ErrorMessage.length + 5
  | .oack o => 2 + ((o.Options.map fun q => q.1.length + q.2.length + 2).sum)

/-- Wire layout of a Request as spec sections 4.2 and 6 word it: two-byte
big-endian opcode, filename bytes, `0x00`, mode bytes, `0x00`, then for each
option in stored order: name bytes, `0x00`, value bytes, `0x00`.  Stated
independently of the embedding of `Request::serialize`, to be compared with
it. -/
def requestWire (T : Nat) (f m : List Byte)
    (opts : List (List Byte × List Byte)) : List Byte :=
  [T / 256 % 256, T % 256] ++ f ++ [0] ++ m ++ [0] ++
    opts.foldr (fun q acc => q.1 ++ [0] ++ q.2 ++ [0] ++ acc) []

/-! ## Helper lemmas -/

theorem optionPairBytes_eq_foldr (ps : List (List Byte × List Byte)) :
    optionPairBytes ps = ps.foldr (fun q acc => q.1 ++ [0] ++ q.2 ++ [0] ++ acc) [] := by
  induction ps with
  | nil => rfl
  | cons q rest ih => simp [optionPairBytes, ih]

theorem optionPairBytes_length (ps : List (List Byte × List Byte)) :
    (optionPairBytes ps).length = optionPairSize ps := by
  induction ps with
  | nil => rfl
  | cons q rest ih =>
    obtain ⟨n, v⟩ := q
    simp [optionPairBytes, optionPairSize, ih]
    omega

theorem optionPairSize_eq_sum (ps : List (List Byte × List Byte)) :
    optionPairSize ps = (ps.map fun q => q.1.length + q.2.length + 2).sum := by
  induction ps with
  | nil => rfl
  | cons q rest ih =>
    obtain ⟨n, v⟩ := q
    simp [optionPairSize, ih]

theorem splitAtNull_append (s r : List Byte) (h : 0 ∉ s) :
    splitAtNull (s ++ 0 :: r) = some (s, r) := by
  induction s with
  | nil => simp [splitAtNull]
  | cons b bs ih =>
    have hb : ¬b = 0 := by
      intro hb
      exact h (by rw [hb]; exact List.mem_cons_self 0 bs)
    have hbs : 0 ∉ bs := fun hm => h (List.mem_cons_of_mem b hm)
    simp [splitAtNull, hb, ih hbs]

theorem parsePairsGo_succ (f : Nat) (l : List Byte) (hl : l ≠ []) :
    parsePairsGo (f + 1) l =
      match splitAtNull l with
      | none => Except.error DecodingError.MissingTerminator
      | some (name, rest1) =>
        match splitAtNull rest1 with
        | none => Except.error DecodingError.MissingTerminator
        | some (val, rest2) =>
          match parsePairsGo f rest2 with
          | Except.error e => Except.error e
          | Except.ok ps => Except.ok ((name, val) :: ps) := by
  cases l with
  | nil => exact absurd rfl hl
  | cons b bs => rfl

theorem parsePairsGo_optionPairBytes (ps : List (List Byte × List Byte)) :
    ∀ fuel, (∀ q ∈ ps, 0 ∉ q.1 ∧ 0 ∉ q.2) →
      (optionPairBytes ps).length ≤ fuel →
      parsePairsGo fuel (optionPairBytes ps) = Except.ok ps := by
  induction ps with
  | nil =>
    intro fuel _ _
    cases fuel <;> rfl
  | cons q rest ih =>
    intro fuel hnn hf
    obtain ⟨n, v⟩ := q
    have hn : 0 ∉ n := (hnn (n, v) (List.mem_cons_self _ _)).1
    have hv : 0 ∉ v := (hnn (n, v) (List.mem_cons_self _ _)).2
    have hlen : (optionPairBytes ((n, v) :: rest)).length =
        n.length + v.length + 2 + (optionPairBytes rest).length := by
      simp [optionPairBytes]
      omega
    cases fuel with
    | zero => omega
    | succ f =>
      have hne : optionPairBytes ((n, v) :: rest) ≠ [] := by
        intro hcontra
        rw [hcontra] at hlen
        simp at hlen
        omega
      rw [parsePairsGo_succ f _ hne]
      have hshape : optionPairBytes ((n, v) :: rest) =
          n ++ 0 :: (v ++ 0 :: optionPairBytes rest) := by
        simp [optionPairBytes]
      rw [hshape, splitAtNull_append n _ hn]
      simp only
      rw [splitAtNull_append v _ hv]
      simp only
      rw [ih f (fun q hq => hnn q (List.mem_cons_of_mem _ hq)) (by omega)]

theorem parsePairs_optionPairBytes (ps : List (List Byte × List Byte))
    (h : ∀ q ∈ ps, 0 ∉ q.1 ∧ 0 ∉ q.2) :
    parsePairs (optionPairBytes ps) = Except.ok ps :=
  parsePairsGo_optionPairBytes ps (optionPairBytes ps).length h (le_refl _)

theorem decode_data_bytes (B : Nat) (buf : List Byte) (hB : B < 65536)
    (hlen : buf.length ≤ 512) :
    decode (be16 types.DataPacket ++ be16 B ++ buf) =
      Except.ok (Packet.data ⟨B, buf⟩) := by
  have hBB : B / 256 % 256 * 256 + B % 256 = B := by omega
  show decode (0 :: 3 :: (B / 256 % 256 :: B % 256 :: buf)) = _
  simp [decode, types.ReadRequest, types.WriteRequest, types.DataPacket, hlen, hBB]

theorem decode_ack_bytes (B : Nat) (hB : B < 65536) :
    decode (be16 types.AcknowledgmentPacket ++ be16 B) =
      Except.ok (Packet.ack ⟨B⟩) := by
  have hBB : B / 256 % 256 * 256 + B % 256 = B := by omega
  show decode (0 :: 4 :: (B / 256 % 256 :: B % 256 :: [])) = _
  simp [decode, types.ReadRequest, types.WriteRequest, types.DataPacket,
    types.AcknowledgmentPacket, hBB]

theorem decode_error_bytes (c : Nat) (msg : List Byte) (hc : c ≤ 8)
    (hm : 0 ∉ msg) :
    decode (be16 types.ErrorPacket ++ be16 c ++ msg ++ [0]) =
      Except.ok (Packet.err ⟨c, msg⟩) := by
  have hcc : c / 256 % 256 * 256 + c % 256 = c := by omega
  show decode (0 :: 5 :: (c / 256 % 256 :: c % 256 :: (msg ++ 0 :: []))) = _
  simp only [decode]
  norm_num [types.ReadRequest, types.WriteRequest, types.DataPacket,
    types.AcknowledgmentPacket, types.ErrorPacket, hcc]
  rw [splitAtNull_append msg [] hm]
  simp [hc]

theorem decode_oack_bytes (opts : List (List Byte × List Byte))
    (hnd : (opts.map Prod.fst).Nodup) (hq : ∀ q ∈ opts, 0 ∉ q.1 ∧ 0 ∉ q.2) :
    decode (be16 types.OptionAcknowledgmentPacket ++ optionPairBytes opts) =
      Except.ok (Packet.oack ⟨opts⟩) := by
  show decode (0 :: 6 :: optionPairBytes opts) = _
  simp only [decode]
  norm_num [types.ReadRequest, types.WriteRequest, types.DataPacket,
    types.AcknowledgmentPacket, types.ErrorPacket,
    types.OptionAcknowledgmentPacket]
  rw [parsePairs_optionPairBytes opts hq]
  simp [hnd]

theorem decode_request_bytes (T : Nat) (f m : List Byte) (ns vs : List (List Byte))
    (hT : T = types.ReadRequest ∨ T = types.WriteRequest)
    (hf : 0 ∉ f) (hm0 : 0 ∉ m) (hmode : validMode m = true)
    (hlen : ns.length = vs.length) (hnd : ns.Nodup)
    (hns : ∀ n ∈ ns, 0 ∉ n) (hvs : ∀ v ∈ vs, 0 ∉ v) :
    decode (be16 T ++ f ++ [0] ++ m ++ [0] ++ optionPairBytes (ns.zip vs)) =
      Except.ok (Packet.request ⟨T, f, m, ns, vs⟩) := by
  have hzip : ∀ q ∈ ns.zip vs, 0 ∉ q.1 ∧ 0 ∉ q.2 := by
    intro q hq
    obtain ⟨a, b⟩ := q
    have hab := List.of_mem_zip hq
    exact ⟨hns a hab.1, hvs b hab.2⟩
  have hfst : (ns.zip vs).map Prod.fst = ns :=
    List.map_fst_zip ns vs (le_of_eq hlen)
  have hsnd : (ns.zip vs).map Prod.snd = vs :=
    List.map_snd_zip ns vs (le_of_eq hlen.symm)
  rcases hT with h1 | h1 <;> subst h1 <;>
  · simp only [be16, types.ReadRequest, types.WriteRequest, List.append_assoc,
      List.cons_append, List.nil_append, List.singleton_append]
    norm_num
    simp only [decode]
    norm_num
    rw [splitAtNull_append f _ hf]
    simp only
    rw [splitAtNull_append m _ hm0]
    simp only [hmode, if_true, parsePairs_optionPairBytes _ hzip]
    simp [hfst, hsnd, hnd, types.ReadRequest, types.WriteRequest]

/-! ## Claim theorems -/

/-- C1: for every packet of any of the five variants whose fields satisfy the
section 3 invariants, `serialize` succeeds and writes exactly as many bytes as
the size it returns, that size being computable in advance per variant (for
Request `2 + |filename| + |mode| + 2` plus `|name| + |value| + 2` per option,
for OptionAcknowledgment `2` plus `|name| + |value| + 2` per entry, for Error
`|message| + 5`, for Data `4 + |payload|`, for Acknowledgment `4`). -/
theorem serialize_writes_claimed_size (p : Packet) (h : p.wf) :
    ∃ bs, p.serialize = some (bs, claimedSize p) ∧ bs.length = claimedSize p := by
  cases p with
  | request r =>
    obtain ⟨hT, hfne, hfa, hmne, hma, hlen, hrest⟩ := h
    refine ⟨be16 r.Type_ ++ r.Filename ++ [0] ++ r.Mode ++ [0]
      ++ optionPairBytes (r.OptionsNames.zip r.OptionsValues), ?_, ?_⟩
    · simp only [Packet.serialize, Request.serialize, hlen, if_true, claimedSize,
        optionPairSize_eq_sum]
      norm_num
      omega
    · simp [be16, optionPairBytes_length, optionPairSize_eq_sum, claimedSize]
      omega
  | data d =>
    exact ⟨be16 types.DataPacket ++ be16 d.Block ++ d.DataBuffer,
      by simp [Packet.serialize, Data.serialize, claimedSize],
      by simp [be16, claimedSize]; omega⟩
  | ack a =>
    exact ⟨be16 types.AcknowledgmentPacket ++ be16 a.Block,
      by simp [Packet.serialize, Acknowledgment.serialize, claimedSize],
      by simp [be16, claimedSize]⟩
  | err e =>
    exact ⟨be16 types.ErrorPacket ++ be16 e.ErrorCode ++ e.ErrorMessage ++ [0],
      by simp [Packet.serialize, Error.serialize, claimedSize]; omega,
      by simp [be16, claimedSize]⟩
  | oack o =>
    exact ⟨be16 types.OptionAcknowledgmentPacket ++ optionPairBytes o.Options,
      by simp [Packet.serialize, OptionAcknowledgment.serialize, claimedSize,
        optionPairSize_eq_sum],
      by simp [be16, optionPairBytes_length, optionPairSize_eq_sum, claimedSize]; omega⟩

theorem serialize_writes_claimed_size_witness :
    ∃ bs, Packet.serialize (Packet.err ⟨1, str "File not found"⟩) =
        some (bs, claimedSize (Packet.err ⟨1, str "File not found"⟩)) ∧
      bs.length = claimedSize (Packet.err ⟨1, str "File not found"⟩) :=
  serialize_writes_claimed_size (Packet.err ⟨1, str "File not found"⟩) (by decide)

/-- C2: for every Request (with its parallel option vectors of equal length,
which is what the serialize-time assertion requires), `serialize` emits the
two-byte big-endian opcode, the filename bytes, `0x00`, the mode bytes,
`0x00`, then name bytes, `0x00`, value bytes, `0x00` for each option in
stored order (`requestWire`); in particular the read request for file.txt in
octet mode with no options serializes to exactly
00 01 66 69 6C 65 2E 74 78 74 00 6F 63 74 65 74 00. -/
theorem request_serialize_wire_layout :
    (∀ r : Request, r.OptionsNames.length = r.OptionsValues.length →
      ∃ n, r.serialize = some (requestWire r.Type_ r.Filename r.Mode
        (r.OptionsNames.zip r.OptionsValues), n)) ∧
    Request.serialize ⟨types.ReadRequest, str "file.txt", str "octet", [], []⟩ =
      some ([0x00, 0x01, 0x66, 0x69, 0x6C, 0x65, 0x2E, 0x74, 0x78, 0x74, 0x00,
             0x6F, 0x63, 0x74, 0x65, 0x74, 0x00], 17) := by
  constructor
  · intro r hlen
    refine ⟨2 + r.Filename.length + r.Mode.length
      + optionPairSize (r.OptionsNames.zip r.OptionsValues) + 2, ?_⟩
    simp [Request.serialize, hlen, requestWire, be16, optionPairBytes_eq_foldr]
  · decide

theorem request_serialize_wire_layout_witness :
    ∃ n, Request.serialize ⟨2, str "a", str "octet", [str "blksize"], [str "1024"]⟩ =
      some (requestWire 2 (str "a") (str "octet")
        ([str "blksize"].zip [str "1024"]), n) :=
  request_serialize_wire_layout.1
    ⟨2, str "a", str "octet", [str "blksize"], [str "1024"]⟩ (by decide)

/-- C3 counterexample: the claim fails as stated.  The request with filename
f and mode mail satisfies every section 3 invariant (mode is only required to
be a non-empty ASCII null-free string), yet decoding its encoding yields
`InvalidMode` — the spec's decoder strictly rejects modes other than netascii
and octet — rather than the original packet. -/
theorem decode_encode_not_id_on_wf :
    Packet.wf (Packet.request ⟨1, str "f", str "mail", [], []⟩) ∧
    encode (Packet.request ⟨1, str "f", str "mail", [], []⟩) =
      some [0, 1, 102, 0, 109, 97, 105, 108, 0] ∧
    decode [0, 1, 102, 0, 109, 97, 105, 108, 0] =
      Except.error DecodingError.InvalidMode := by decide

/-- C3 (amended): for every well-formed packet whose mode — when the packet
is a Request — is case-insensitively one of the known transfer-mode names
netascii or octet, decoding the byte sequence produced by encoding yields the
packet back (for the option collections the decoded order equals the stored
order, so mapping equality also holds). -/
theorem decode_encode_roundtrip (p : Packet) (hwf : p.wf) (hm : p.modeKnown) :
    ∃ bs, encode p = some bs ∧ decode bs = Except.ok p := by
  cases p with
  | request r =>
    obtain ⟨hT, hfne, ⟨hfa, hf0⟩, hmne, ⟨hma, hm0⟩, hlen, hnd, hns, hvs⟩ := hwf
    refine ⟨be16 r.Type_ ++ r.Filename ++ [0] ++ r.Mode ++ [0]
      ++ optionPairBytes (r.OptionsNames.zip r.OptionsValues), ?_, ?_⟩
    · simp [encode, Packet.serialize, Request.serialize, hlen]
    · exact decode_request_bytes r.Type_ r.Filename r.Mode r.OptionsNames
        r.OptionsValues hT hf0 hm0 hm hlen hnd
        (fun n hn => (hns n hn).2) (fun v hv => (hvs v hv).2)
  | data d =>
    obtain ⟨h1, h2, h3, h4⟩ := hwf
    exact ⟨be16 types.DataPacket ++ be16 d.Block ++ d.DataBuffer,
      by simp [encode, Packet.serialize, Data.serialize],
      decode_data_bytes d.Block d.DataBuffer h2 h3⟩
  | ack a =>
    obtain ⟨h1, h2⟩ := hwf
    exact ⟨be16 types.AcknowledgmentPacket ++ be16 a.Block,
      by simp [encode, Packet.serialize, Acknowledgment.serialize],
      decode_ack_bytes a.Block h2⟩
  | err e =>
    obtain ⟨h1, h2, h3⟩ := hwf
    exact ⟨be16 types.ErrorPacket ++ be16 e.ErrorCode ++ e.ErrorMessage ++ [0],
      by simp [encode, Packet.serialize, Error.serialize],
      decode_error_bytes e.ErrorCode e.ErrorMessage h1 h3⟩
  | oack o =>
    obtain ⟨h1, h2⟩ := hwf
    exact ⟨be16 types.OptionAcknowledgmentPacket ++ optionPairBytes o.Options,
      by simp [encode, Packet.serialize, OptionAcknowledgment.serialize],
      decode_oack_bytes o.Options h1
        (fun q hq => ⟨(h2 q hq).1.2, (h2 q hq).2.2⟩)⟩

theorem decode_encode_roundtrip_witness :
    ∃ bs, encode (Packet.request ⟨1, str "file.txt", str "octet",
        [str "blksize"], [str "1024"]⟩) = some bs ∧
      decode bs = Except.ok (Packet.request ⟨1, str "file.txt", str "octet",
        [str "blksize"], [str "1024"]⟩) :=
  decode_encode_roundtrip
    (Packet.request ⟨1, str "file.txt", str "octet", [str "blksize"], [str "1024"]⟩)
    (by decide) (by decide)

/-- C4: constructing a Data packet succeeds (the range assertions hold) for
every block at least 1 and every payload of length up to 512, and a payload
of length 513 or more always fails the assertion, whatever the block. -/
theorem data_mk_bounds :
    (∀ (b : Nat) (buf : List Byte), 1 ≤ b → buf.length ≤ 512 →
      Data.mk? b buf = some ⟨b, buf⟩) ∧
    (∀ (b : Nat) (buf : List Byte), 513 ≤ buf.length → Data.mk? b buf = none) := by
  constructor
  · intro b buf hb hlen
    simp [Data.mk?, hb, hlen]
  · intro b buf hlen
    simp [Data.mk?]
    omega

theorem data_mk_bounds_witness :
    Data.mk? 1 (List.replicate 512 0) = some ⟨1, List.replicate 512 0⟩ ∧
    Data.mk? 1 (List.replicate 513 0) = none := by
  constructor
  · exact data_mk_bounds.1 1 (List.replicate 512 0) (by decide)
      (by simp only [List.length_replicate]; decide)
  · exact data_mk_bounds.2 1 (List.replicate 513 0)
      (by simp only [List.length_replicate]; decide)

/-- C5: constructing an Acknowledgment succeeds (the assertion holds) for
every block at least 1, and block 0 fails the assertion. -/
theorem ack_mk_bounds :
    (∀ b : Nat, 1 ≤ b → Acknowledgment.mk? b = some ⟨b⟩) ∧
    Acknowledgment.mk? 0 = none := by
  constructor
  · intro b hb
    simp [Acknowledgment.mk?, hb]
  · simp [Acknowledgment.mk?]

theorem ack_mk_bounds_witness :
    Acknowledgment.mk? 1 = some ⟨1⟩ ∧ Acknowledgment.mk? 0 = none :=
  ⟨ack_mk_bounds.1 1 (by decide), ack_mk_bounds.2⟩

/-- C6 counterexample: the claim fails as stated.  The Request constructor
succeeds with an empty filename and empty mode, and with two options sharing
a name, although the claim says such constructions must fail: the source
asserts only the opcode invariant. -/
theorem request_mk_no_field_validation :
    Request.mk? types.ReadRequest [] [] [] [] =
      some ⟨types.ReadRequest, [], [], [], []⟩ ∧
    Request.mk? types.ReadRequest (str "f") (str "octet")
        [str "a", str "a"] [str "1", str "2"] =
      some ⟨types.ReadRequest, str "f", str "octet",
        [str "a", str "a"], [str "1", str "2"]⟩ := by decide

/-- C6 (amended): the Request constructor validates eagerly exactly one
invariant, the opcode being ReadRequest or WriteRequest — construction fails
precisely when the opcode is neither, and succeeds (storing the fields
verbatim) whenever it is one of the two, with filename and mode emptiness,
embedded null bytes and duplicate option names never checked. -/
theorem request_mk_checks_opcode_only (T : Nat) (f m : List Byte)
    (ns vs : List (List Byte)) :
    (Request.mk? T f m ns vs = some ⟨T, f, m, ns, vs⟩ ↔
      (T = types.ReadRequest ∨ T = types.WriteRequest)) ∧
    (Request.mk? T f m ns vs = none ↔
      ¬(T = types.ReadRequest ∨ T = types.WriteRequest)) := by
  unfold Request.mk?
  by_cases h : T = types.ReadRequest ∨ T = types.WriteRequest <;> simp [h]

/-- C7: for every error code at most 8 and message without null bytes,
`Error::serialize` emits the big-endian opcode 5, the big-endian code, the
message bytes and exactly one terminating `0x00`, returning the message
length plus 5; in particular Error 1 with message File not found serializes
to 00 05 00 01, the ASCII message bytes, then 00. -/
theorem error_serialize_wire_layout :
    (∀ (c : Nat) (msg : List Byte), c ≤ 8 → (0 : Nat) ∉ msg →
      Error.serialize ⟨c, msg⟩ = ([0, 5, 0, c] ++ msg ++ [0], msg.length + 5)) ∧
    Error.serialize ⟨1, str "File not found"⟩ =
      ([0x00, 0x05, 0x00, 0x01] ++ str "File not found" ++ [0x00], 19) := by
  constructor
  · intro c msg hc hm
    have h1 : c / 256 % 256 = 0 := by omega
    have h2 : c % 256 = c := by omega
    simp [Error.serialize, be16, types.ErrorPacket, h1, h2]
    omega
  · decide

theorem error_serialize_wire_layout_witness :
    Error.serialize ⟨0, []⟩ = ([0, 5, 0, 0] ++ [] ++ [0], 5) :=
  error_serialize_wire_layout.1 0 [] (by decide) (by decide)

/-- C8: for every block value at least 1 (a 16-bit value),
`Acknowledgment::serialize` produces the fixed four bytes 0, 4, then the
block big-endian, and returns 4; in particular block 5 serializes to exactly
00 04 00 05. -/
theorem ack_serialize_wire_layout :
    (∀ b : Nat, 1 ≤ b → b < 65536 →
      Acknowledgment.serialize ⟨b⟩ = ([0, 4, b / 256, b % 256], 4) ∧
      (Acknowledgment.serialize ⟨b⟩).1.length = 4) ∧
    Acknowledgment.serialize ⟨5⟩ = ([0x00, 0x04, 0x00, 0x05], 4) := by
  constructor
  · intro b h1 h2
    have hb : b / 256 % 256 = b / 256 := by omega
    exact ⟨by simp [Acknowledgment.serialize, be16, types.AcknowledgmentPacket, hb],
      by simp [Acknowledgment.serialize, be16]⟩
  · decide

theorem ack_serialize_wire_layout_witness :
    Acknowledgment.serialize ⟨258⟩ = ([0, 4, 258 / 256, 258 % 256], 4) ∧
    (Acknowledgment.serialize ⟨258⟩).1.length = 4 :=
  ack_serialize_wire_layout.1 258 (by decide) (by decide)

/-- C9: for every Data value with block at least 1 (a 16-bit value) and
payload of length at most 512, `Data::serialize` emits the big-endian opcode
3, the big-endian block, then the payload bytes verbatim with no terminator
appended (null bytes in the payload are copied unchanged), producing exactly
`4 + |payload|` bytes. -/
theorem data_serialize_wire_layout (d : Data) (h1 : 1 ≤ d.Block)
    (h2 : d.Block < 65536) (_h3 : d.DataBuffer.length ≤ 512) :
    Data.serialize d = ([0, 3, d.Block / 256, d.Block % 256] ++ d.DataBuffer,
      2 + 2 + d.DataBuffer.length) ∧
    (Data.serialize d).1.length = 4 + d.DataBuffer.length := by
  have hb : d.Block / 256 % 256 = d.Block / 256 := by omega
  exact ⟨by simp [Data.serialize, be16, types.DataPacket, hb],
    by simp [Data.serialize, be16]; omega⟩

theorem data_serialize_wire_layout_witness :
    Data.serialize ⟨1, [0, 255, 0]⟩ =
      ([0, 3, 1 / 256, 1 % 256] ++ [0, 255, 0], 2 + 2 + ([0, 255, 0] : List Byte).length) ∧
    (Data.serialize ⟨1, [0, 255, 0]⟩).1.length = 4 + ([0, 255, 0] : List Byte).length :=
  data_serialize_wire_layout ⟨1, [0, 255, 0]⟩ (by decide) (by decide) (by decide)

/-- C10: a Request stores its options as two parallel vectors whose length
equality no constructor checks but `serialize` asserts; for every Request
constructed from name and value vectors of equal length the assertion holds
(serialization does not fail) and serialize emits, for each index, the
name and value at that index as the encoded pair at that index (the pairs
being `OptionsNames.zip OptionsValues` in order). -/
theorem request_parallel_option_vectors (T : Nat) (f m : List Byte)
    (ns vs : List (List Byte)) (hlen : ns.length = vs.length)
    (r : Request) (hr : Request.mk? T f m ns vs = some r) :
    r.serialize ≠ none ∧
    r.serialize = some (be16 T ++ f ++ [0] ++ m ++ [0] ++ optionPairBytes (ns.zip vs),
      2 + f.length + m.length + optionPairSize (ns.zip vs) + 2) ∧
    ∀ (i : Nat) (hz : i < (ns.zip vs).length) (hn : i < ns.length)
      (hv : i < vs.length),
      (ns.zip vs).get ⟨i, hz⟩ = (ns.get ⟨i, hn⟩, vs.get ⟨i, hv⟩) := by
  unfold Request.mk? at hr
  by_cases hT : T = types.ReadRequest ∨ T = types.WriteRequest
  · rw [if_pos hT] at hr
    injection hr with hr
    subst hr
    refine ⟨?_, ?_, ?_⟩
    · simp [Request.serialize, hlen]
    · simp [Request.serialize, hlen]
    · intro i hz hn hv
      simp [List.get_eq_getElem, List.getElem_zip]
  · rw [if_neg hT] at hr
    exact absurd hr (by simp)

theorem request_parallel_option_vectors_witness :
    Request.serialize ⟨1, str "f", str "octet", [str "blksize"], [str "1024"]⟩ ≠ none ∧
    Request.serialize ⟨1, str "f", str "octet", [str "blksize"], [str "1024"]⟩ =
      some (be16 1 ++ str "f" ++ [0] ++ str "octet" ++ [0]
          ++ optionPairBytes ([str "blksize"].zip [str "1024"]),
        2 + (str "f").length + (str "octet").length
          + optionPairSize ([str "blksize"].zip [str "1024"]) + 2) ∧
    ∀ (i : Nat) (hz : i < ([str "blksize"].zip [str "1024"]).length)
      (hn : i < ([str "blksize"] : List (List Byte)).length)
      (hv : i < ([str "1024"] : List (List Byte)).length),
      ([str "blksize"].zip [str "1024"]).get ⟨i, hz⟩ =
        (([str "blksize"] : List (List Byte)).get ⟨i, hn⟩,
         ([str "1024"] : List (List Byte)).get ⟨i, hv⟩) :=
  request_parallel_option_vectors 1 (str "f") (str "octet")
    [str "blksize"] [str "1024"] (by decide)
    ⟨1, str "f", str "octet", [str "blksize"], [str "1024"]⟩ (by decide)

end tftp
